import Mathlib

/-!
Verification development for the Best-Farmer backup viewer
(`docs/app.js`).  The program is a browser-resident, read-only viewer for
ZIP backup archives containing a SQLite snapshot (`ranch.db`) and photo
attachments.  This file shallowly embeds the data model and the operations
of the viewer: HTML escaping, the schema probe, the search filter layer,
date-column reformatting, the inventory snapshot resolution policy with its
pooled/legacy aggregations, the per-view row caps, photo resolution, and
archive loading.  `Old`-suffixed definitions embed the earlier revision of
the file (`docs/app.js` as shipped under `src/docs/`), whose inventory
branch differs from the current one.

Modelling conventions: SQL/JS numbers are rationals, SQL rows are either
structures (for the fixed schemas) or association lists of named `Val`s
(for generically rendered records); fallible operations return
`Except`/`Option`.  JS string primitives (`toLowerCase`, `trim`,
`includes`, `replaceAll` with one-character patterns, `split`) are given
explicit character-list implementations so that every definition is
executable by the kernel.
-/

namespace Viewer

/-! ### JS string primitives -/

/-- Model of `String.prototype.toLowerCase` (ASCII, as used by the data). -/
def jsLower (s : String) : String := ⟨s.data.map Char.toLower⟩

/-- Model of SQL `UPPER` / uppercasing (ASCII). -/
def jsUpper (s : String) : String := ⟨s.data.map Char.toUpper⟩

/-- Drop whitespace from both ends of a character list. -/
def trimChars (l : List Char) : List Char :=
  ((l.dropWhile Char.isWhitespace).reverse.dropWhile Char.isWhitespace).reverse

/-- Model of `String.prototype.trim`. -/
def jsTrim (s : String) : String := ⟨trimChars s.data⟩

/-- Does `needle` occur as a contiguous run inside `hay`?  Model of
`String.prototype.includes`. -/
def includesChars (needle : List Char) : List Char → Bool
  | [] => needle.isEmpty
  | a :: t => needle.isPrefixOf (a :: t) || includesChars needle t

/-- `hay.includes(needle)` on strings. -/
def strIncludes (hay needle : String) : Bool :=
  includesChars needle.data hay.data

/-! ### SQL/JS values and records -/

/-- A database value as surfaced by the query engine: `NULL`, an integer,
a real (modelled as a rational), or text. -/
inductive Val : Type
  | null : Val
  | int : Int → Val
  | real : ℚ → Val
  | text : String → Val
deriving DecidableEq

/-- JS `String(v)` for a value (number formatting simplified to Lean's
`toString`; the claims under verification do not depend on the exact
digits JS would print for non-integers). -/
def jsString : Val → String
  | .null => "null"
  | .int i => toString i
  | .real q => toString q
  | .text s => s

/-- JS truthiness test `!v` (negated): `null`, `0` and `""` are falsy. -/
def jsFalsy : Val → Bool
  | .null => true
  | .int i => i == 0
  | .real q => q == 0
  | .text s => s == ""

/-- Accumulate a decimal digit string. -/
def digitsValAux (acc : Nat) : List Char → Option Nat
  | [] => some acc
  | c :: t => if c.isDigit then digitsValAux (acc * 10 + (c.toNat - 48)) t else none

/-- JS `Number(v)` conversion; `none` models `NaN`.  Text conversion is
modelled for optionally-signed decimal integer literals (the shape date
columns actually hold); other text is `NaN`. -/
def jsToNumber : Val → Option ℚ
  | .null => some 0
  | .int i => some i
  | .real q => some q
  | .text s =>
    match s.data with
    | [] => some 0
    | '-' :: t =>
      if t.isEmpty then none else (digitsValAux 0 t).map (fun n => -(n : ℚ))
    | l => (digitsValAux 0 l).map (fun n => (n : ℚ))

/-- A record row: an association list from column name to value (models a
JS object as returned by `stmt.getAsObject()`). -/
abbrev Rec := List (String × Val)

/-- `Object.keys` of a record. -/
def recKeys (r : Rec) : List String := r.map Prod.fst

/-- JS `r[c]`: `none` models `undefined` (column absent). -/
def recGet (r : Rec) (c : String) : Option Val := r.lookup c

/-! ### `escapeHtml` -/

/-- JS `String.prototype.replaceAll` specialised to a one-character
pattern `c`, replacing each occurrence by `rep`. -/
def replaceAllChar (c : Char) (rep : List Char) : List Char → List Char
  | [] => []
  | a :: t => (if a = c then rep else [a]) ++ replaceAllChar c rep t

/-- JS `s ?? ""` then `String(...)`: `undefined` (`none`) and `null` map
to the empty string. -/
def jsStringOrEmpty : Option Val → String
  | none => ""
  | some .null => ""
  | some v => jsString v

/-- `escapeHtml` from the source: `String(s ?? "")` followed by
`replaceAll` of `&`, `<`, `>`, `"` (in that order) with their entities. -/
def escapeHtml (v : Option Val) : String :=
  ⟨replaceAllChar '"' "&quot;".data
    (replaceAllChar '>' "&gt;".data
      (replaceAllChar '<' "&lt;".data
        (replaceAllChar '&' "&amp;".data (jsStringOrEmpty v).data)))⟩

/-- Claim-side single-pass encoder: each character is mapped to its HTML
entity (or itself). -/
def htmlEncodeChar (c : Char) : List Char :=
  if c = '&' then "&amp;".data
  else if c = '<' then "&lt;".data
  else if c = '>' then "&gt;".data
  else if c = '"' then "&quot;".data
  else [c]

/-- Single-pass encoding of a character list. -/
def encodeList : List Char → List Char
  | [] => []
  | a :: t => htmlEncodeChar a ++ encodeList t

/-- Claim-side encoder on strings. -/
def htmlEncode (s : String) : String := ⟨encodeList s.data⟩

/-- One `<td>` cell of `renderTable`'s body loop. -/
def cellHtml (v : Option Val) : String := "<td>" ++ escapeHtml v ++ "</td>"

/-- One `<tr>` row of `renderTable`'s body loop (data columns only). -/
def rowHtml (cols : List String) (r : Rec) : String :=
  "<tr>" ++ String.join (cols.map fun c => cellHtml (recGet r c)) ++ "</tr>"

/-- The photo cell of `renderTable`'s body loop: a falsy reference gives
the muted placeholder, otherwise an `img` element whose `data-photo`
attribute is the escaped reference. -/
def photoCellHtml (p? : Option Val) : String :=
  match p? with
  | none => "<td class=\"muted\">—</td>"
  | some v =>
    if jsFalsy v then "<td class=\"muted\">—</td>"
    else "<td><img class=\"thumb\" data-photo=\"" ++ escapeHtml (some v) ++
      "\" alt=\"photo\"/></td>"

/-- The table opening and header row of `renderTable`: one `<th>` per
column name (escaped), plus the escaped extra column title when a photo
key is designated. -/
def headerRowHtml (cols : List String) (photoKey : Option String)
    (extraColTitle : String) : String :=
  "<table><thead><tr>" ++
  String.join (cols.map fun c =>
    "<th>" ++ escapeHtml (some (Val.text c)) ++ "</th>") ++
  (match photoKey with
    | some _ => "<th>" ++ escapeHtml (some (Val.text extraColTitle)) ++ "</th>"
    | none => "") ++
  "</tr></thead><tbody>"

/-- One full `<tr>` of `renderTable`'s body: the data cells followed by
the photo cell when a photo key is designated. -/
def rowHtmlFull (cols : List String) (photoKey : Option String) (r : Rec) :
    String :=
  "<tr>" ++ String.join (cols.map fun c => cellHtml (recGet r c)) ++
  (match photoKey with
    | none => ""
    | some k => photoCellHtml (recGet r k)) ++
  "</tr>"

/-- The complete table HTML `renderTable` assigns to the view (an empty
row set renders the `No rows.` notice instead). -/
def buildTableHtml (rows : List Rec) (photoKey : Option String)
    (extraColTitle : String) : String :=
  match rows with
  | [] => "<div class=\"muted\">No rows.</div>"
  | r0 :: _ =>
    headerRowHtml (recKeys r0) photoKey extraColTitle ++
    String.join (rows.map fun r => rowHtmlFull (recKeys r0) photoKey r) ++
    "</tbody></table>"

/-! ### `hasTable` (schema probe) -/

/-- The `sqlite_master` probe query: the database handle is `none` when no
database is open (then `db.prepare` throws, modelled as an error); when
open, the query returns the matching table names. -/
def masterTableQuery (db : Option (List String)) (tableName : String) :
    Except String (List String) :=
  match db with
  | none => .error "no database open"
  | some tables => .ok (tables.filter (fun n => n == tableName))

/-- `hasTable` from the source: `true` iff the probe query succeeds with at
least one row; any error is caught and yields `false`. -/
def hasTable (db : Option (List String)) (tableName : String) : Bool :=
  match masterTableQuery db tableName with
  | .ok rows => decide (0 < rows.length)
  | .error _ => false

/-! ### Filter layer (`renderTable` state and `applySearchFilter`) -/

/-- The session-scoped search state written by `renderTable`:
`lastRenderedRows`, `lastRenderedCols`, `lastRenderedPhotoCol`. -/
structure FilterState : Type where
  rows : List Rec
  cols : List String
  photoCol : Option String
deriving DecidableEq

/-- The state update performed by `renderTable(rows, {photoPathKey})`:
rows and photo column are stored as given; the column list becomes `[]`
for an empty row set and `Object.keys(rows[0])` otherwise. -/
def renderTableState (rows : List Rec) (photoKey : Option String) : FilterState :=
  { rows := rows
    cols := match rows with
      | [] => []
      | r :: _ => recKeys r
    photoCol := photoKey }

/-- The row predicate of `applySearchFilter`: some listed column has a
non-`null` value whose lower-cased string form includes the (already
trimmed and lower-cased) query `q` as a substring. -/
def rowMatches (cols : List String) (q : String) (r : Rec) : Bool :=
  cols.any fun c =>
    match recGet r c with
    | none => false
    | some .null => false
    | some v => strIncludes (jsLower (jsString v)) q

/-- `applySearchFilter` from the source, as a transformer of the search
state: the query is trimmed and lower-cased; with nothing rendered the
state is untouched; an empty query re-renders the stored full set; a
non-empty query re-renders the filtered subset (which replaces the stored
set). -/
def applySearchFilter (q : String) (st : FilterState) : FilterState :=
  let q' := jsLower (jsTrim q)
  if st.rows.isEmpty || st.cols.isEmpty then st
  else if q' = "" then renderTableState st.rows st.photoCol
  else renderTableState (st.rows.filter (rowMatches st.cols q')) st.photoCol

/-! ### Date-column mapping (`fmtDate`, `mapDateColumns`)

`fmtDate` delegates the actual calendar rendering to the host's
`Date.prototype.toISOString`; the embedding takes that external formatter
as an explicit parameter `iso`.  A JS `Date` built from a finite number
`n` has `NaN` time exactly when `|n|` exceeds `8.64e15` milliseconds. -/

/-- Largest representable JS `Date` time value, in milliseconds. -/
def maxDateMillis : ℚ := 8640000000000000

/-- `fmtDate(ms)` from the source: falsy input gives `""`; a non-finite or
non-positive number gives `String(ms)`; an out-of-range `Date` (NaN
`getTime`) gives `String(ms)`; otherwise the ISO date prefix. -/
def fmtDate (iso : ℚ → String) (v : Val) : String :=
  if jsFalsy v then ""
  else
    match jsToNumber v with
    | none => jsString v
    | some n =>
      if n ≤ 0 then jsString v
      else if maxDateMillis < n then jsString v
      else iso n

/-- Claim-side rendering rule for a date-column value, as the claim words
it: non-null, non-empty and a finite positive number becomes the ISO
date, anything else keeps its original string form. -/
def fmtDateClaim (iso : ℚ → String) (v : Val) : String :=
  match jsToNumber v with
  | none => jsString v
  | some n => if 0 < n then iso n else jsString v

/-- Amended rendering rule actually implemented by `fmtDate`: falsy values
(`0`, `""`) become the empty string; positive finite numbers within the
`Date` range become the ISO date; everything else keeps its string form. -/
def fmtDateSpec (iso : ℚ → String) (v : Val) : String :=
  if jsFalsy v then ""
  else
    match jsToNumber v with
    | none => jsString v
    | some n => if 0 < n ∧ n ≤ maxDateMillis then iso n else jsString v

/-- JS `String.prototype.endsWith`. -/
def endsWithChars (s suf : String) : Bool := suf.data.isSuffixOf s.data

/-- The date-column name test of `mapDateColumns`. -/
def isDateCol (c : String) : Bool :=
  endsWithChars c "_date" || c == "date" || endsWithChars c "_at" || c == "created_at"

/-- `mapDateColumns(rows, cols)` from the source: build the set of
date-named columns of `cols`; if empty return the rows unchanged,
otherwise return fresh copies in which each date column whose value is
neither `null` nor `""` is replaced by `fmtDate` of it (a string). -/
def mapDateColumns (iso : ℚ → String) (rows : List Rec) (cols : List String) :
    List Rec :=
  let dateCols := cols.filter isDateCol
  if dateCols.isEmpty then rows
  else rows.map fun r => r.map fun kv =>
    if dateCols.contains kv.1 && !(kv.2 == Val.null) && !(kv.2 == Val.text "")
    then (kv.1, Val.text (fmtDate iso kv.2))
    else kv

/-- A concrete stand-in for the external ISO formatter, used by concrete
instances only. -/
def iso0 : ℚ → String := fun _ => "1970-01-01"

/-- A concrete two-row roster state for concrete filter instances. -/
def st4 : FilterState :=
  { rows := [[("ear_tag", Val.text "A12")], [("ear_tag", Val.text "B7")]]
    cols := ["ear_tag"]
    photoCol := none }

/-- Another concrete two-row state for concrete filter instances. -/
def st5 : FilterState :=
  { rows := [[("ear_tag", Val.text "A12"), ("sex", Val.text "bull")],
             [("ear_tag", Val.text "B7"), ("sex", Val.text "cow")]]
    cols := ["ear_tag", "sex"]
    photoCol := none }

/-! ### Inventory tables and aggregations -/

/-- A `feed_storages` row. -/
structure StorageRow : Type where
  id : Int
  name : String
deriving DecidableEq

/-- A `feed_lots` row (feed types: name, unit, cost). -/
structure FeedLotRow : Type where
  id : Int
  name : String
  unit : String
  cost_per_unit : ℚ
deriving DecidableEq

/-- A `feed_inventory_pools` row (current schema). -/
structure PoolRow : Type where
  id : Int
  storage_id : Int
  feed_lot_id : Int
  notes : String
  created_at : Int
deriving DecidableEq

/-- A `feed_inventory_pool_txns` row. -/
structure PoolTxnRow : Type where
  pool_id : Int
  type : String
  qty : ℚ
deriving DecidableEq

/-- A `feed_inventory_lots` row (legacy schema). -/
structure LegacyLotRow : Type where
  id : Int
  storage_id : Int
  feed_lot_id : Int
deriving DecidableEq

/-- A `feed_inventory_txns` row (legacy schema). -/
structure LegacyTxnRow : Type where
  lot_id : Int
  type : String
  qty : ℚ
deriving DecidableEq

/-- The six tables the inventory view touches. -/
structure InvTables : Type where
  pools : List PoolRow
  poolTxns : List PoolTxnRow
  storages : List StorageRow
  feedLots : List FeedLotRow
  legacyLots : List LegacyLotRow
  legacyTxns : List LegacyTxnRow

/-- One row of the joined transaction relation underlying either snapshot
query: group key columns plus the transaction kind and quantity. -/
structure JoinedTxn : Type where
  storage : String
  feed_type : String
  unit : String
  type : String
  qty : ℚ
deriving DecidableEq

/-- The pooled join:
`feed_inventory_pool_txns JOIN feed_inventory_pools JOIN feed_storages
JOIN feed_lots` on the respective ids (SQL inner-join semantics). -/
def pooledJoined (t : InvTables) : List JoinedTxn :=
  t.poolTxns.flatMap fun it =>
    (t.pools.filter (fun p => p.id == it.pool_id)).flatMap fun p =>
      (t.storages.filter (fun s => s.id == p.storage_id)).flatMap fun s =>
        (t.feedLots.filter (fun fl => fl.id == p.feed_lot_id)).map fun fl =>
          { storage := s.name, feed_type := fl.name, unit := fl.unit
            type := it.type, qty := it.qty }

/-- The legacy join:
`feed_inventory_txns JOIN feed_inventory_lots JOIN feed_storages
JOIN feed_lots` on the respective ids. -/
def legacyJoined (t : InvTables) : List JoinedTxn :=
  t.legacyTxns.flatMap fun it =>
    (t.legacyLots.filter (fun il => il.id == it.lot_id)).flatMap fun il =>
      (t.storages.filter (fun s => s.id == il.storage_id)).flatMap fun s =>
        (t.feedLots.filter (fun fl => fl.id == il.feed_lot_id)).map fun fl =>
          { storage := s.name, feed_type := fl.name, unit := fl.unit
            type := it.type, qty := it.qty }

/-- The SQL `CASE UPPER(it.type) WHEN 'ADD' THEN qty WHEN 'REMOVE' THEN
-qty WHEN 'ADJUST' THEN qty ELSE 0 END` selector of both snapshot
queries. -/
def caseSigned (ty : String) (q : ℚ) : ℚ :=
  let u := jsUpper ty
  if u = "ADD" then q
  else if u = "REMOVE" then -q
  else if u = "ADJUST" then q
  else 0

/-- Claim-side signed contribution: `ADD` and `ADJUST` contribute `+qty`,
`REMOVE` contributes `-qty`, comparison case-insensitive, anything else
contributes `0`. -/
def specContribution (ty : String) (q : ℚ) : ℚ :=
  if jsUpper ty = "ADD" ∨ jsUpper ty = "ADJUST" then q
  else if jsUpper ty = "REMOVE" then -q
  else 0

/-- Floor of a rational (via Euclidean division, so it computes). -/
def floorQ (q : ℚ) : Int := q.num.ediv q.den

/-- Round to the nearest integer, halves away from zero (SQLite
`ROUND`). -/
def roundHalfAway (q : ℚ) : Int :=
  if 0 ≤ q then floorQ (q + 1/2) else -(floorQ (-q + 1/2))

/-- SQL `ROUND(x, 3)`. -/
def round3 (x : ℚ) : ℚ := (roundHalfAway (x * 1000) : ℚ) / 1000

/-- The group keys of a joined relation, first occurrence first
(each distinct `(storage, feed_type, unit)` triple exactly once). -/
def groupKeysAux (seen : List (String × String × String)) :
    List JoinedTxn → List (String × String × String)
  | [] => []
  | j :: t =>
    let k := (j.storage, j.feed_type, j.unit)
    if k ∈ seen then groupKeysAux seen t
    else k :: groupKeysAux (k :: seen) t

/-- Distinct group keys of a joined relation. -/
def groupKeys (js : List JoinedTxn) : List (String × String × String) :=
  groupKeysAux [] js

/-- One output row of either snapshot query. -/
structure SnapRow : Type where
  storage : String
  feed_type : String
  unit : String
  on_hand : ℚ
deriving DecidableEq

/-- `GROUP BY s.name, fl.name, fl.unit` with
`ROUND(SUM(CASE ...), 3) AS on_hand`: one output row per distinct key,
whose `on_hand` is the rounded signed sum over the key's transactions. -/
def snapshotRowsOf (js : List JoinedTxn) : List SnapRow :=
  (groupKeys js).map fun k =>
    { storage := k.1, feed_type := k.2.1, unit := k.2.2
      on_hand := round3
        (((js.filter (fun j => (j.storage, j.feed_type, j.unit) = k)).map
          (fun j => caseSigned j.type j.qty)).sum) }

/-- The pooled snapshot query of the inventory view. -/
def pooledSnapshot (t : InvTables) : List SnapRow :=
  snapshotRowsOf (pooledJoined t)

/-- The legacy snapshot query of the inventory view. -/
def legacySnapshot (t : InvTables) : List SnapRow :=
  snapshotRowsOf (legacyJoined t)

/-! ### Inventory resolution policy -/

/-- The database as seen by the inventory branch: each table is present
(`some rows`) or absent (`none`). -/
structure InvDB : Type where
  pools : Option (List PoolRow)
  poolTxns : Option (List PoolTxnRow)
  storages : Option (List StorageRow)
  feedLots : Option (List FeedLotRow)
  legacyLots : Option (List LegacyLotRow)
  legacyTxns : Option (List LegacyTxnRow)

/-- `hasPooled`: all four pooled-quadruple tables are present. -/
def hasPooled (db : InvDB) : Bool :=
  db.pools.isSome && db.poolTxns.isSome && db.storages.isSome && db.feedLots.isSome

/-- `hasLegacy`: all four legacy-quadruple tables are present. -/
def hasLegacy (db : InvDB) : Bool :=
  db.legacyLots.isSome && db.legacyTxns.isSome && db.storages.isSome && db.feedLots.isSome

/-- The table contents used by the queries (an absent table reads as
empty; the code only queries a table when its branch established
presence). -/
def tablesOf (db : InvDB) : InvTables :=
  { pools := db.pools.getD []
    poolTxns := db.poolTxns.getD []
    storages := db.storages.getD []
    feedLots := db.feedLots.getD []
    legacyLots := db.legacyLots.getD []
    legacyTxns := db.legacyTxns.getD [] }

/-- Outcome of the inventory branch in the current revision: a pooled
snapshot table, a legacy snapshot table, or the no-data diagnostic with
pooled counts `(pools, pool_txns)` and legacy counts `(lots, txns)`. -/
inductive InvResult : Type
  | pooled : List SnapRow → InvResult
  | legacy : List SnapRow → InvResult
  | diagnostic : Nat → Nat → Nat → Nat → InvResult
deriving DecidableEq

/-- The inventory branch of `renderTab` (current revision): try the
pooled snapshot when the pooled quadruple is present and the aggregation
is non-empty; otherwise try the legacy snapshot the same way; otherwise
render the diagnostic, each count pair defaulting to zero when its
quadruple is absent. -/
def renderInventory (db : InvDB) : InvResult :=
  if hasPooled db && decide (0 < (pooledSnapshot (tablesOf db)).length) then
    .pooled (pooledSnapshot (tablesOf db))
  else if hasLegacy db && decide (0 < (legacySnapshot (tablesOf db)).length) then
    .legacy (legacySnapshot (tablesOf db))
  else
    .diagnostic
      (if hasPooled db then (tablesOf db).pools.length else 0)
      (if hasPooled db then (tablesOf db).poolTxns.length else 0)
      (if hasLegacy db then (tablesOf db).legacyLots.length else 0)
      (if hasLegacy db then (tablesOf db).legacyTxns.length else 0)

/-- The count of a table's rows when the table is present and its
quadruple-presence flag holds, else `0`. -/
def countOrZero {α : Type u_1} (o : Option (List α)) (b : Bool) : Nat :=
  match o, b with
  | some l, true => l.length
  | _, _ => 0

/-- Claim-side policy, written from the claim's words: if the pooled
quadruple is present and the pooled aggregation yields at least one row,
that result is rendered; otherwise if the legacy quadruple is present and
the legacy aggregation yields at least one row, that result is rendered;
otherwise a diagnostic with pooled and legacy counts, each defaulting to
`0` when its tables are absent. -/
def inventoryPolicySpec (db : InvDB) : InvResult :=
  if hasPooled db = true ∧ pooledSnapshot (tablesOf db) ≠ [] then
    .pooled (pooledSnapshot (tablesOf db))
  else if hasLegacy db = true ∧ legacySnapshot (tablesOf db) ≠ [] then
    .legacy (legacySnapshot (tablesOf db))
  else
    .diagnostic
      (countOrZero db.pools (hasPooled db))
      (countOrZero db.poolTxns (hasPooled db))
      (countOrZero db.legacyLots (hasLegacy db))
      (countOrZero db.legacyTxns (hasLegacy db))

/-! ### Inventory branch of the older revision (`src/docs/app.js`) -/

/-- One row of the old revision's `poolList` diagnostic query. -/
structure PoolListRow : Type where
  storage : String
  feed_type : String
  unit : String
  notes : String
  created_at : Int
deriving DecidableEq

/-- The old revision's pool-listing query: pools joined to storages and
feed lots, capped at 500 rows (join order as written; `ORDER BY` left as
join order since the counterexample uses an empty listing). -/
def poolListQuery (t : InvTables) : List PoolListRow :=
  (t.pools.flatMap fun p =>
    (t.storages.filter (fun s => s.id == p.storage_id)).flatMap fun s =>
      (t.feedLots.filter (fun fl => fl.id == p.feed_lot_id)).map fun fl =>
        { storage := s.name, feed_type := fl.name, unit := fl.unit
          notes := p.notes, created_at := p.created_at }).take 500

/-- Outcome of the inventory branch in the older revision, which has a
dedicated pooled diagnostic (counts plus pool listing), a legacy
diagnostic, and a no-tables notice. -/
inductive InvResultOld : Type
  | pooled : List SnapRow → InvResultOld
  | pooledDiag : Nat → Nat → List PoolListRow → InvResultOld
  | legacy : List SnapRow → InvResultOld
  | legacyDiag : Nat → Nat → InvResultOld
  | noTables : InvResultOld
deriving DecidableEq

/-- The inventory branch of the older revision: when the pooled quadruple
is present, the branch always ends inside it — a non-empty pooled
aggregation is rendered, and an empty one renders the pooled diagnostic;
the legacy quadruple is consulted only when the pooled one is absent. -/
def renderInventoryOld (db : InvDB) : InvResultOld :=
  if hasPooled db then
    if decide (0 < (pooledSnapshot (tablesOf db)).length) then
      .pooled (pooledSnapshot (tablesOf db))
    else
      .pooledDiag (tablesOf db).pools.length (tablesOf db).poolTxns.length
        (poolListQuery (tablesOf db))
  else if hasLegacy db then
    if decide (0 < (legacySnapshot (tablesOf db)).length) then
      .legacy (legacySnapshot (tablesOf db))
    else
      .legacyDiag (tablesOf db).legacyLots.length (tablesOf db).legacyTxns.length
  else .noTables

/-- Concrete inventory tables for concrete aggregation instances: one
pool in storage `Barn A` holding `Hay` in `bales` with transactions
`ADD 100`, `remove 30`, `Adjust -5`, and one legacy lot with `ADD 100`. -/
def T0 : InvTables :=
  { pools := [{ id := 1, storage_id := 1, feed_lot_id := 1, notes := ""
                created_at := 0 }]
    poolTxns := [{ pool_id := 1, type := "ADD", qty := 100 },
                 { pool_id := 1, type := "remove", qty := 30 },
                 { pool_id := 1, type := "Adjust", qty := -5 }]
    storages := [{ id := 1, name := "Barn A" }]
    feedLots := [{ id := 1, name := "Hay", unit := "bales", cost_per_unit := 0 }]
    legacyLots := [{ id := 1, storage_id := 1, feed_lot_id := 1 }]
    legacyTxns := [{ lot_id := 1, type := "ADD", qty := 100 }] }

/-- The single row the pooled aggregation produces on `T0`. -/
def r2p : SnapRow :=
  { storage := "Barn A", feed_type := "Hay", unit := "bales"
    on_hand := round3 ((((pooledJoined T0).filter (fun j =>
      (j.storage, j.feed_type, j.unit) = ("Barn A", "Hay", "bales"))).map
      (fun j => caseSigned j.type j.qty)).sum) }

/-- The single row the legacy aggregation produces on `T0`. -/
def r2l : SnapRow :=
  { storage := "Barn A", feed_type := "Hay", unit := "bales"
    on_hand := round3 ((((legacyJoined T0).filter (fun j =>
      (j.storage, j.feed_type, j.unit) = ("Barn A", "Hay", "bales"))).map
      (fun j => caseSigned j.type j.qty)).sum) }

/-- A database with the pooled quadruple present but empty and the legacy
quadruple present with data. -/
def dbC1 : InvDB :=
  { pools := some []
    poolTxns := some []
    storages := some [{ id := 1, name := "Barn A" }]
    feedLots := some [{ id := 1, name := "Hay", unit := "bales", cost_per_unit := 0 }]
    legacyLots := some [{ id := 1, storage_id := 1, feed_lot_id := 1 }]
    legacyTxns := some [{ lot_id := 1, type := "ADD", qty := 100 }] }

/-- Pairwise-distinct feed-type names, used to build inventory snapshots
of any size. -/
def natName (i : Nat) : String := ⟨List.replicate i 'a'⟩

/-- Inventory tables whose snapshot aggregations have `n + 1` rows: one
pool (and one legacy lot) whose single transaction joins `n + 1` feed
lots sharing the id but carrying distinct names, so the group keys are
pairwise distinct. -/
def bigInv (n : Nat) : InvTables :=
  { pools := [{ id := 0, storage_id := 0, feed_lot_id := 0, notes := ""
                created_at := 0 }]
    poolTxns := [{ pool_id := 0, type := "ADD", qty := 1 }]
    storages := [{ id := 0, name := "S" }]
    feedLots := (List.range (n + 1)).map fun i =>
      { id := 0, name := natName i, unit := "u", cost_per_unit := 0 }
    legacyLots := [{ id := 0, storage_id := 0, feed_lot_id := 0 }]
    legacyTxns := [{ lot_id := 0, type := "ADD", qty := 1 }] }

/-! ### View queries and their row caps -/

/-- A `cattle` table row, as selected by the roster query. -/
structure CattleRow : Type where
  id : Int
  ear_tag : String
  status : String
  sex : String
  role : String
  group_name : String
  cohort : String
  photo_path : Option String
deriving DecidableEq

/-- String comparison used for `ORDER BY ... ASC` (lexicographic on
characters). -/
def strLe (a b : String) : Bool := decide (¬ b < a)

/-- A 201-head roster used to exhibit the uncapped cattle query. -/
def cattle201 : List CattleRow :=
  List.replicate 201
    { id := 0, ear_tag := "T1", status := "active", sex := "F", role := "cow"
      group_name := "g", cohort := "c", photo_path := none }

/-- The roster query: `SELECT ... FROM cattle ORDER BY ear_tag ASC`
(note: no `LIMIT`). -/
def cattleQuery (cattle : List CattleRow) : List CattleRow :=
  cattle.mergeSort fun a b => strLe a.ear_tag b.ear_tag

/-- A `feed_entries` table row. -/
structure FeedEntryRow : Type where
  date : Int
  group_name : String
  feed_lot_id : Int
  amount : ℚ
deriving DecidableEq

/-- One row of the feed-log query result. -/
structure FeedViewRow : Type where
  date : Int
  group_name : String
  feed_type : String
  amount : ℚ
  unit : String
  cost_per_unit : ℚ
deriving DecidableEq

/-- The feed-log query: `feed_entries JOIN feed_lots` on `feed_lot_id`,
`ORDER BY fe.date DESC LIMIT 2000`. -/
def feedQuery (entries : List FeedEntryRow) (lots : List FeedLotRow) :
    List FeedViewRow :=
  ((entries.flatMap fun fe =>
    (lots.filter (fun fl => fl.id == fe.feed_lot_id)).map fun fl =>
      { date := fe.date, group_name := fe.group_name, feed_type := fl.name
        amount := fe.amount, unit := fl.unit
        cost_per_unit := fl.cost_per_unit }).mergeSort
    fun a b => decide (b.date ≤ a.date)).take 2000

/-- A `breeding_sessions` table row, as selected. -/
structure SessionRow : Type where
  group_name : String
  start_date : Int
  end_date : Int
  gestation_days : Int
  notes : String
deriving DecidableEq

/-- The breeding-sessions query:
`ORDER BY start_date DESC LIMIT 200`. -/
def sessionsQuery (sessions : List SessionRow) : List SessionRow :=
  (sessions.mergeSort fun a b => decide (b.start_date ≤ a.start_date)).take 200

/-- A `breeding_exposures` table row (`created_at` is used only for
ordering and is not selected). -/
structure ExposureRow : Type where
  session_id : Int
  cow_tag : String
  cow_status : String
  exposed : Int
  observed_breeding_date : Int
  preg_check_date : Int
  preg_result : String
  due_date : Int
  notes : String
  cow_photo_path : Option String
  created_at : Int
deriving DecidableEq

/-- The projection of an exposure row onto the selected columns. -/
structure ExposureViewRow : Type where
  session_id : Int
  cow_tag : String
  cow_status : String
  exposed : Int
  observed_breeding_date : Int
  preg_check_date : Int
  preg_result : String
  due_date : Int
  notes : String
  cow_photo_path : Option String
deriving DecidableEq

/-- The breeding-exposures query:
`ORDER BY created_at DESC LIMIT 500`, projecting away `created_at`. -/
def exposuresQuery (exposures : List ExposureRow) : List ExposureViewRow :=
  ((exposures.mergeSort fun a b => decide (b.created_at ≤ a.created_at)).take
    500).map fun e =>
      { session_id := e.session_id, cow_tag := e.cow_tag
        cow_status := e.cow_status, exposed := e.exposed
        observed_breeding_date := e.observed_breeding_date
        preg_check_date := e.preg_check_date, preg_result := e.preg_result
        due_date := e.due_date, notes := e.notes
        cow_photo_path := e.cow_photo_path }

/-! ### Photo resolution -/

/-- Content types assumed from the file extension. -/
inductive Mime : Type
  | png | jpeg | webp | pdf | octetStream
deriving DecidableEq

/-- Byte content of an archive entry. -/
abbrev Bytes := List Nat

/-- The archive index: archive-relative path to bytes (the `zipIndex`
map, built from the non-directory entries). -/
abbrev ZipIndex := List (String × Bytes)

/-- The extension dispatch of `blobUrlFromZipPath`. -/
def mimeOf (path : String) : Mime :=
  let lower := jsLower path
  if endsWithChars lower ".png" then .png
  else if endsWithChars lower ".jpg" || endsWithChars lower ".jpeg" then .jpeg
  else if endsWithChars lower ".webp" then .webp
  else if endsWithChars lower ".pdf" then .pdf
  else .octetStream

/-- The referent of a created object URL: the entry's bytes tagged with
the assumed content type. -/
structure BlobUrl : Type where
  bytes : Bytes
  mime : Mime
deriving DecidableEq

/-- `blobUrlFromZipPath(path)`: `null` for a falsy path or a path absent
from the archive index, otherwise an object URL for the entry's bytes
with the extension-derived type. -/
def blobUrlFromZipPath (zipIndex : ZipIndex) (path : String) : Option BlobUrl :=
  if path = "" then none
  else
    match zipIndex.lookup path with
    | none => none
    | some bytes => some { bytes := bytes, mime := mimeOf path }

/-- Final content of one photo cell after the async fill loop. -/
inductive PhotoCell : Type
  | image : BlobUrl → PhotoCell
  | missing : PhotoCell
deriving DecidableEq

/-- The per-image step of the photo fill loop: a resolved URL becomes the
image source, a failed resolution replaces the image with the textual
`Missing` node. -/
def resolveOne (zipIndex : ZipIndex) (path : String) : PhotoCell :=
  match blobUrlFromZipPath zipIndex path with
  | some url => .image url
  | none => .missing

/-- The photo fill loop over all `img[data-photo]` elements of a rendered
table, one cell per photo-bearing row. -/
def resolveImgs (zipIndex : ZipIndex) (paths : List String) : List PhotoCell :=
  paths.map (resolveOne zipIndex)

/-! ### Archive loading -/

/-- One entry of the loaded ZIP archive. -/
structure ZipEntry : Type where
  path : String
  dir : Bool
  bytes : Bytes
deriving DecidableEq

/-- Split a character list at `/` (JS `name.split("/")`). -/
def splitOnSlash : List Char → List (List Char)
  | [] => [[]]
  | a :: t =>
    let r := splitOnSlash t
    if a = '/' then [] :: r
    else
      match r with
      | [] => [[a]]
      | h :: t2 => (a :: h) :: t2

/-- JS `name.split("/").pop()`: the base name of an archive path. -/
def basename (name : String) : String :=
  ⟨(splitOnSlash name.data).getLastD []⟩

/-- Build `zipIndex` from the archive: every non-directory entry, keyed
by its archive-relative path. -/
def buildZipIndex (entries : List ZipEntry) : ZipIndex :=
  (entries.filter (fun e => !e.dir)).map fun e => (e.path, e.bytes)

/-- The state a successful load leaves behind: the archive index and the
bytes of the database handed to the engine. -/
structure LoadedState : Type where
  zipIndex : ZipIndex
  dbBytes : Bytes
deriving DecidableEq

/-- `loadFromZipFile`: index the archive, find a file entry whose base
name is exactly `ranch.db` (at any depth), and open it; throw
`ZIP missing ranch.db` when there is none. -/
def loadFromZipFile (entries : List ZipEntry) : Except String LoadedState :=
  let idx := buildZipIndex entries
  match idx.find? (fun nb => basename nb.1 == "ranch.db") with
  | none => .error "ZIP missing ranch.db"
  | some nb => .ok { zipIndex := idx, dbBytes := nb.2 }

/-- The file-picker change handler around `loadFromZipFile`: on success
the view UI is shown and the final status reports the completed load; a
thrown error is caught, reported in the status line, and the view UI from
this attempt is never shown.  Result: `(status line, view UI shown)`. -/
def handleFileChange (entries : List ZipEntry) : String × Bool :=
  match loadFromZipFile entries with
  | .ok _ => ("Loaded. (All local, nothing uploaded.)", true)
  | .error m => ("Error: " ++ m, false)

/-! ## Helper lemmas -/

theorem replaceAllChar_append (c : Char) (rep : List Char) (l1 l2 : List Char) :
    replaceAllChar c rep (l1 ++ l2) =
      replaceAllChar c rep l1 ++ replaceAllChar c rep l2 := by
  induction l1 with
  | nil => rfl
  | cons a t ih => simp [replaceAllChar, ih]

theorem escape_chain_eq_encode (l : List Char) :
    replaceAllChar '"' "&quot;".data
      (replaceAllChar '>' "&gt;".data
        (replaceAllChar '<' "&lt;".data
          (replaceAllChar '&' "&amp;".data l))) = encodeList l := by
  induction l with
  | nil => rfl
  | cons a t ih =>
    show replaceAllChar '"' _ (replaceAllChar '>' _ (replaceAllChar '<' _
      ((if a = '&' then _ else [a]) ++ replaceAllChar '&' _ t))) = _
    rw [replaceAllChar_append, replaceAllChar_append, replaceAllChar_append, ih]
    show _ ++ encodeList t = htmlEncodeChar a ++ encodeList t
    congr 1
    by_cases h1 : a = '&'
    · subst h1; rfl
    · by_cases h2 : a = '<'
      · subst h2; rfl
      · by_cases h3 : a = '>'
        · subst h3; rfl
        · by_cases h4 : a = '"'
          · subst h4; rfl
          · simp [replaceAllChar, htmlEncodeChar, h1, h2, h3, h4]

theorem encodeList_no_markup (l : List Char) (c : Char) (h : c ∈ encodeList l) :
    c ≠ '<' ∧ c ≠ '>' ∧ c ≠ '"' := by
  induction l with
  | nil => cases h
  | cons a t ih =>
    rw [encodeList, List.mem_append] at h
    rcases h with h | h
    · by_cases h1 : a = '&'
      · subst h1; simp only [htmlEncodeChar, if_pos rfl] at h
        fin_cases h <;> simp
      · by_cases h2 : a = '<'
        · subst h2; simp only [htmlEncodeChar] at h
          norm_num at h
          fin_cases h <;> simp
        · by_cases h3 : a = '>'
          · subst h3; simp only [htmlEncodeChar] at h
            norm_num at h
            fin_cases h <;> simp
          · by_cases h4 : a = '"'
            · subst h4; simp only [htmlEncodeChar] at h
              norm_num at h
              fin_cases h <;> simp
            · simp only [htmlEncodeChar, h1, h2, h3, h4, if_false] at h
              simp only [List.mem_singleton] at h
              subst h
              exact ⟨h2, h3, h4⟩
    · exact ih h

/-! ## Claim C10 — the schema probe is total -/

/-- C10: for every table name, `hasTable` never throws; it returns `true`
exactly when the `sqlite_master` query succeeds with at least one row, and
`false` when the query returns no rows or when execution raises an
error.  (Totality is inherent: `hasTable` is a total `Bool`-valued
function of the database state.) -/
theorem C10_hasTable_total (db : Option (List String)) (tableName : String) :
    (hasTable db tableName = true ↔
      ∃ rows, masterTableQuery db tableName = .ok rows ∧ 0 < rows.length) ∧
    (∀ m, masterTableQuery db tableName = .error m →
      hasTable db tableName = false) := by
  constructor
  · unfold hasTable
    cases h : masterTableQuery db tableName with
    | ok rows => simp [h]
    | error m => simp [h]
  · intro m hm
    unfold hasTable
    rw [hm]

/-- Concrete instance of C10: a present table probes `true`; with no open
database the probe error is swallowed into `false`. -/
theorem C10_hasTable_total_witness :
    hasTable (some ["cattle"]) "cattle" = true ∧
    hasTable none "cattle" = false := by
  constructor
  · exact (C10_hasTable_total (some ["cattle"]) "cattle").1.mpr
      ⟨["cattle"], rfl, by decide⟩
  · exact (C10_hasTable_total none "cattle").2 "no database open" rfl

/-! ## Claim C8 — HTML escaping of rendered values -/

/-- C8: every data value placed into rendered table HTML — cell text,
header text, and the photo-path `data-photo` attribute — passes through
`escapeHtml`, which maps `null`/`undefined` to the empty string and
replaces every occurrence of `&`, `<`, `>`, `"` with its HTML entity
(`escapeHtml` coincides with the single-pass per-character encoder
`htmlEncode`); hence no escaped output contains a raw `<`, `>` or `"`,
each table cell is exactly the encoding of its field value, each header
cell the encoding of its column name, and each photo attribute the
encoding of its reference. -/
theorem C8_escapeHtml_encodes (v? : Option Val) :
    (escapeHtml none = "" ∧ escapeHtml (some Val.null) = "") ∧
    escapeHtml v? = htmlEncode (jsStringOrEmpty v?) ∧
    (∀ c, c ∈ (escapeHtml v?).data → c ≠ '<' ∧ c ≠ '>' ∧ c ≠ '"') ∧
    (∀ cols r, rowHtml cols r =
      "<tr>" ++ String.join (cols.map fun c =>
        "<td>" ++ htmlEncode (jsStringOrEmpty (recGet r c)) ++ "</td>") ++ "</tr>") ∧
    (∀ cols photoKey extraColTitle, headerRowHtml cols photoKey extraColTitle =
      "<table><thead><tr>" ++
      String.join (cols.map fun c => "<th>" ++ htmlEncode c ++ "</th>") ++
      (match photoKey with
        | some _ => "<th>" ++ htmlEncode extraColTitle ++ "</th>"
        | none => "") ++
      "</tr></thead><tbody>") ∧
    (∀ v, jsFalsy v = false →
      photoCellHtml (some v) =
        "<td><img class=\"thumb\" data-photo=\"" ++ htmlEncode (jsString v) ++
          "\" alt=\"photo\"/></td>") ∧
    (∀ cols photoKey r, rowHtmlFull cols photoKey r =
      "<tr>" ++ String.join (cols.map fun c =>
        "<td>" ++ htmlEncode (jsStringOrEmpty (recGet r c)) ++ "</td>") ++
      (match photoKey with
        | none => ""
        | some k => photoCellHtml (recGet r k)) ++
      "</tr>") := by
  have hmain : ∀ w : Option Val, escapeHtml w = htmlEncode (jsStringOrEmpty w) := by
    intro w
    unfold escapeHtml htmlEncode
    exact congrArg String.mk (escape_chain_eq_encode _)
  refine ⟨⟨hmain none, hmain (some Val.null)⟩, hmain v?, ?_, ?_, ?_, ?_, ?_⟩
  · intro c hc
    rw [hmain v?] at hc
    exact encodeList_no_markup _ c hc
  · intro cols r
    simp only [rowHtml, cellHtml, hmain]
  · intro cols photoKey extraColTitle
    simp only [headerRowHtml, hmain]
    rfl
  · intro v hv
    have hvn : jsStringOrEmpty (some v) = jsString v := by
      cases v with
      | null => simp [jsFalsy] at hv
      | int i => rfl
      | real q => rfl
      | text s => rfl
    unfold photoCellHtml
    dsimp only
    rw [if_neg (by simp [hv]), hmain (some v), hvn]
  · intro cols photoKey r
    simp only [rowHtmlFull, cellHtml, hmain]

/-- Concrete instance of C8: a `<` in a field value is rendered as its
entity, the escaped output carries no raw `<`, and a photo reference
containing a quote is encoded inside its `data-photo` attribute. -/
theorem C8_escapeHtml_encodes_witness :
    escapeHtml (some (Val.text "a<b")) = "a&lt;b" ∧
    ¬ ('<' ∈ (escapeHtml (some (Val.text "a<b"))).data) ∧
    photoCellHtml (some (Val.text "a\"b.png")) =
      "<td><img class=\"thumb\" data-photo=\"a&quot;b.png\" alt=\"photo\"/></td>" := by
  have h := C8_escapeHtml_encodes (some (Val.text "a<b"))
  refine ⟨?_, ?_, ?_⟩
  · rw [h.2.1]; rfl
  · intro hc
    exact ((h.2.2.1 '<' hc).1 rfl)
  · rw [h.2.2.2.2.2.1 (Val.text "a\"b.png") rfl]
    rfl

/-! ## Claim C6 — best-effort, per-row photo resolution -/

/-- C6: photo resolution is per-row independent and best-effort: the fill
loop produces one cell per photo-bearing row (no failure aborts the
render), the cell at index `i` depends only on that row's reference, and
a reference absent from the archive index yields the textual `Missing`
indicator for that row alone. -/
theorem C6_photo_resolution (zipIndex : ZipIndex) (paths : List String)
    (i : Nat) (hi : i < paths.length) :
    (resolveImgs zipIndex paths).length = paths.length ∧
    (resolveImgs zipIndex paths)[i]? = some (resolveOne zipIndex paths[i]) ∧
    (zipIndex.lookup paths[i] = none →
      (resolveImgs zipIndex paths)[i]? = some PhotoCell.missing) := by
  refine ⟨List.length_map _ _, ?_, ?_⟩
  · simp [resolveImgs, List.getElem?_map, List.getElem?_eq_getElem hi]
  · intro h
    by_cases hp : paths[i] = "" <;>
      simp [resolveImgs, List.getElem?_map, List.getElem?_eq_getElem hi,
        resolveOne, blobUrlFromZipPath, hp, h]

/-- Concrete instance of C6: with one archived photo and one dangling
reference, both rows get a cell and the dangling one shows `Missing`. -/
theorem C6_photo_resolution_witness :
    (resolveImgs [("photos/a.png", [1])] ["photos/a.png", "gone.png"]).length = 2 ∧
    (resolveImgs [("photos/a.png", [1])] ["photos/a.png", "gone.png"])[1]? =
      some PhotoCell.missing := by
  have h := C6_photo_resolution [("photos/a.png", [1])]
    ["photos/a.png", "gone.png"] 1 (by decide)
  exact ⟨h.1, h.2.2 rfl⟩

/-! ## Claim C7 — the archive must contain `ranch.db` -/

/-- C7: loading succeeds in opening a database exactly when the archive
contains, at any depth, a file entry whose base name is `ranch.db`; when
none exists the load fails, the status line reports the error, and the
view UI is not shown from that attempt. -/
theorem C7_load_requires_ranchdb (entries : List ZipEntry) :
    ((∃ st, loadFromZipFile entries = .ok st) ↔
      ∃ e ∈ entries, e.dir = false ∧ basename e.path = "ranch.db") ∧
    ((¬ ∃ e ∈ entries, e.dir = false ∧ basename e.path = "ranch.db") →
      handleFileChange entries = ("Error: ZIP missing ranch.db", false)) ∧
    ((handleFileChange entries).2 = true ↔
      ∃ st, loadFromZipFile entries = .ok st) := by
  have hidx : (∃ nb ∈ buildZipIndex entries, basename nb.1 == "ranch.db") ↔
      ∃ e ∈ entries, e.dir = false ∧ basename e.path = "ranch.db" := by
    simp only [buildZipIndex, List.mem_map, List.mem_filter]
    constructor
    · rintro ⟨nb, ⟨e, ⟨he, hdir⟩, hmk⟩, hb⟩
      refine ⟨e, he, by simpa using hdir, ?_⟩
      have : nb.1 = e.path := by rw [← hmk]
      rw [← this]
      exact beq_iff_eq.mp hb
    · rintro ⟨e, he, hdir, hb⟩
      exact ⟨(e.path, e.bytes), ⟨e, ⟨he, by simp [hdir]⟩, rfl⟩, beq_iff_eq.mpr hb⟩
  have hok : (∃ st, loadFromZipFile entries = .ok st) ↔
      ∃ e ∈ entries, e.dir = false ∧ basename e.path = "ranch.db" := by
    rw [← hidx]
    unfold loadFromZipFile
    cases hf : (buildZipIndex entries).find?
        (fun nb => basename nb.1 == "ranch.db") with
    | none =>
      simp only [hf]
      constructor
      · rintro ⟨st, hst⟩; cases hst
      · rintro ⟨nb, hmem, hb⟩
        have := List.find?_eq_none.mp hf nb hmem
        exact absurd hb this
    | some nb =>
      simp only [hf]
      constructor
      · intro _
        have hmem := List.mem_of_find?_eq_some hf
        have hb := List.find?_some hf
        exact ⟨nb, hmem, hb⟩
      · intro _
        exact ⟨_, rfl⟩
  refine ⟨hok, ?_, ?_⟩
  · intro hno
    have : ¬ ∃ st, loadFromZipFile entries = .ok st := fun h => hno (hok.mp h)
    unfold handleFileChange
    cases hl : loadFromZipFile entries with
    | ok st => exact absurd ⟨st, hl⟩ this
    | error m =>
      have hm : m = "ZIP missing ranch.db" := by
        unfold loadFromZipFile at hl
        dsimp only at hl
        split at hl
        · cases hl; rfl
        · cases hl
      rw [hm]
      rfl
  · unfold handleFileChange
    cases hl : loadFromZipFile entries with
    | ok st => simp [hl]
    | error m => simp [hl]

/-- Concrete instance of C7: a nested `ranch.db` file makes the load
succeed and show the UI; an archive holding only a directory named
`ranch.db` fails with the reported error and no UI. -/
theorem C7_load_requires_ranchdb_witness :
    (handleFileChange [⟨"backup/data/ranch.db", false, [7]⟩]).2 = true ∧
    handleFileChange [⟨"ranch.db", true, []⟩] =
      ("Error: ZIP missing ranch.db", false) := by
  constructor
  · exact (C7_load_requires_ranchdb [⟨"backup/data/ranch.db", false, [7]⟩]).2.2.mpr
      ⟨{ zipIndex := [("backup/data/ranch.db", [7])], dbBytes := [7] }, rfl⟩
  · exact (C7_load_requires_ranchdb [⟨"ranch.db", true, []⟩]).2.1 (by decide)

/-! ## Filter-layer branch lemmas (shared by C4 and C5) -/

theorem jsLower_eq_empty {s : String} : jsLower s = "" ↔ s = "" := by
  constructor
  · intro h
    cases s with
    | mk d =>
      cases d with
      | nil => rfl
      | cons a t =>
        have hd := congrArg String.data h
        simp [jsLower] at hd
  · intro h
    rw [h]
    rfl

theorem applySearchFilter_of_none (q : String) (st : FilterState)
    (h : (st.rows.isEmpty || st.cols.isEmpty) = true) :
    applySearchFilter q st = st := by
  unfold applySearchFilter
  dsimp only
  rw [if_pos h]

theorem applySearchFilter_of_blank (q : String) (st : FilterState)
    (h0 : (st.rows.isEmpty || st.cols.isEmpty) = false)
    (hq : jsLower (jsTrim q) = "") :
    applySearchFilter q st = renderTableState st.rows st.photoCol := by
  unfold applySearchFilter
  dsimp only
  rw [if_neg (by simp [h0]), if_pos hq]

theorem applySearchFilter_of_query (q : String) (st : FilterState)
    (h0 : (st.rows.isEmpty || st.cols.isEmpty) = false)
    (hq : ¬ jsLower (jsTrim q) = "") :
    applySearchFilter q st =
      renderTableState (st.rows.filter (rowMatches st.cols (jsLower (jsTrim q))))
        st.photoCol := by
  unfold applySearchFilter
  dsimp only
  rw [if_neg (by simp [h0]), if_neg hq]

/-! ## Claim C4 — the search filter contract -/

/-- C4: on the last-rendered state, an empty or whitespace-only query
re-displays the full stored row set unchanged, and a non-empty query is
trimmed and lower-cased and keeps exactly the rows in which some listed
column holds a non-null value whose lower-cased string form contains the
query as a substring.  (The embedded `applySearchFilter` takes no
database argument at all: no re-query is possible in either case.)  The
hypothesis reflects the `renderTable` invariant that a non-empty rendered
row set has a non-empty column list. -/
theorem C4_search_filter (st : FilterState) (q : String)
    (hcols : st.rows ≠ [] → st.cols ≠ []) :
    (jsTrim q = "" → (applySearchFilter q st).rows = st.rows) ∧
    (jsTrim q ≠ "" →
      (applySearchFilter q st).rows =
        st.rows.filter (rowMatches st.cols (jsLower (jsTrim q)))) := by
  constructor
  · intro hq
    by_cases h0 : (st.rows.isEmpty || st.cols.isEmpty) = true
    · rw [applySearchFilter_of_none q st h0]
    · rw [applySearchFilter_of_blank q st (by simpa using h0)
        (jsLower_eq_empty.mpr hq)]
      rfl
  · intro hq
    by_cases h0 : (st.rows.isEmpty || st.cols.isEmpty) = true
    · rw [applySearchFilter_of_none q st h0]
      rcases Bool.or_eq_true_iff.mp h0 with h | h
      · have hr : st.rows = [] := by simpa [List.isEmpty_iff] using h
        rw [hr]
        rfl
      · by_cases hr : st.rows = []
        · rw [hr]
          rfl
        · exact absurd (by simpa [List.isEmpty_iff] using h) (hcols hr)
    · rw [applySearchFilter_of_query q st (by simpa using h0)
        (fun hc => hq (jsLower_eq_empty.mp hc))]
      rfl

/-- Concrete instance of C4: a whitespace query keeps both roster rows; a
real query keeps exactly the filtered subset. -/
theorem C4_search_filter_witness :
    (applySearchFilter "   " st4).rows = st4.rows ∧
    (applySearchFilter "A1" st4).rows =
      st4.rows.filter (rowMatches st4.cols (jsLower (jsTrim "A1"))) := by
  constructor
  · exact (C4_search_filter st4 "   " (by decide)).1 (by decide)
  · exact (C4_search_filter st4 "A1" (by decide)).2 (by decide)

/-! ## Claim C5 — filtering is idempotent on an unchanged query -/

/-- C5: re-applying the same query to the state left behind by a filtered
render (which replaced the stored set with the filtered subset) yields
the same state again — every row that matched still matches.  The
hypothesis says the rendered rows share the stored column list, which
`renderTable` guarantees for uniformly-shaped query results. -/
theorem C5_filter_idempotent (st : FilterState) (q : String)
    (huni : ∀ r ∈ st.rows, recKeys r = st.cols) :
    applySearchFilter q (applySearchFilter q st) = applySearchFilter q st := by
  by_cases h0 : (st.rows.isEmpty || st.cols.isEmpty) = true
  · rw [applySearchFilter_of_none q st h0]
    exact applySearchFilter_of_none q st h0
  · have h0f : (st.rows.isEmpty || st.cols.isEmpty) = false := by simpa using h0
    have hcolsne : st.cols.isEmpty = false := by
      rcases Bool.or_eq_false_iff.mp h0f with ⟨_, h⟩
      exact h
    by_cases hq : jsLower (jsTrim q) = ""
    · rw [applySearchFilter_of_blank q st h0f hq]
      cases hr : st.rows with
      | nil =>
        exfalso
        rcases Bool.or_eq_false_iff.mp h0f with ⟨h, _⟩
        rw [hr] at h
        cases h
      | cons r0 rs =>
        have hcols0 : recKeys r0 = st.cols := huni r0 (by rw [hr]; exact List.mem_cons_self r0 rs)
        rw [applySearchFilter_of_blank q _ (by simp [renderTableState, hr, hcols0, hcolsne]) hq]
        simp [renderTableState, hr, hcols0]
    · cases hf : st.rows.filter (rowMatches st.cols (jsLower (jsTrim q))) with
      | nil =>
        rw [applySearchFilter_of_query q st h0f hq, hf]
        exact applySearchFilter_of_none q _ (by simp [renderTableState])
      | cons f0 fs =>
        rw [applySearchFilter_of_query q st h0f hq, hf]
        have hf0mem : f0 ∈ st.rows := by
          have : f0 ∈ st.rows.filter (rowMatches st.cols (jsLower (jsTrim q))) := by
            rw [hf]
            exact List.mem_cons_self f0 fs
          exact (List.mem_filter.mp this).1
        have hcols0 : recKeys f0 = st.cols := huni f0 hf0mem
        have hself : (f0 :: fs).filter
            (rowMatches (recKeys f0) (jsLower (jsTrim q))) = f0 :: fs := by
          rw [hcols0]
          refine List.filter_eq_self.mpr fun a ha => ?_
          have : a ∈ st.rows.filter (rowMatches st.cols (jsLower (jsTrim q))) := by
            rw [hf]
            exact ha
          exact (List.mem_filter.mp this).2
        rw [applySearchFilter_of_query q _
          (by simp [renderTableState, hcols0, hcolsne]) hq]
        dsimp only [renderTableState]
        rw [hself]

/-- Concrete instance of C5: filtering the two-row state with `b` twice
equals filtering it once. -/
theorem C5_filter_idempotent_witness :
    applySearchFilter "b" (applySearchFilter "b" st5) =
      applySearchFilter "b" st5 :=
  C5_filter_idempotent st5 "b" (by decide)

/-! ## Claim C9 — date-column reformatting is framed and non-mutating -/

theorem fmtDate_eq_fmtDateSpec (iso : ℚ → String) (v : Val) :
    fmtDate iso v = fmtDateSpec iso v := by
  unfold fmtDate fmtDateSpec
  by_cases hf : jsFalsy v = true
  · rw [if_pos hf, if_pos hf]
  · rw [if_neg hf, if_neg hf]
    cases hn : jsToNumber v with
    | none => rfl
    | some n =>
      dsimp only
      by_cases h1 : n ≤ 0
      · rw [if_pos h1, if_neg (by rintro ⟨h, _⟩; exact absurd h1 (not_le.mpr h))]
      · rw [if_neg h1]
        by_cases h2 : maxDateMillis < n
        · rw [if_pos h2, if_neg (by rintro ⟨_, h⟩; exact absurd h2 (not_lt.mpr h))]
        · rw [if_neg h2, if_pos ⟨not_le.mp h1, not_lt.mp h2⟩]

theorem list_map_self {α : Type u_1} (l : List α) (f : α → α)
    (h : ∀ a ∈ l, f a = a) : l.map f = l := by
  induction l with
  | nil => rfl
  | cons a t ih =>
    rw [List.map_cons, h a (List.mem_cons_self a t),
      ih fun b hb => h b (List.mem_cons_of_mem a hb)]

theorem dateColsCond_iff (cols : List String) (kv : String × Val) :
    ((cols.filter isDateCol).contains kv.1 && !(kv.2 == Val.null) &&
      !(kv.2 == Val.text "")) = true ↔
    (isDateCol kv.1 = true ∧ kv.1 ∈ cols ∧ kv.2 ≠ Val.null ∧
      kv.2 ≠ Val.text "") := by
  simp only [Bool.and_eq_true, List.contains, List.elem_iff, List.mem_filter,
    Bool.not_eq_true', beq_eq_false_iff_ne, ne_eq]
  constructor
  · rintro ⟨⟨⟨hmem, hdc⟩, hnull⟩, hempty⟩
    exact ⟨hdc, hmem, hnull, hempty⟩
  · rintro ⟨hdc, hmem, hnull, hempty⟩
    exact ⟨⟨⟨hmem, hdc⟩, hnull⟩, hempty⟩

/-- C9 (amended): `mapDateColumns` returns fresh rows in which exactly
the date-named columns listed in `cols` with a non-null, non-`""` value
are rewritten — to the ISO date when the value is truthy, numeric,
positive and within the `Date` range, to `""` when it is falsy (for
example `0`), and to its original string form otherwise — while every
other field of every record keeps its original value.  (Purity of the
embedding reflects that the input rows are never mutated.) -/
theorem C9_date_columns_framed (iso : ℚ → String) (rows : List Rec)
    (cols : List String) :
    mapDateColumns iso rows cols = rows.map (fun r => r.map (fun kv =>
      if isDateCol kv.1 = true ∧ kv.1 ∈ cols ∧ kv.2 ≠ Val.null ∧ kv.2 ≠ Val.text ""
      then (kv.1, Val.text (fmtDateSpec iso kv.2))
      else kv)) := by
  unfold mapDateColumns
  dsimp only
  by_cases hd : (cols.filter isDateCol).isEmpty = true
  · rw [if_pos hd]
    have hnil : cols.filter isDateCol = [] := by simpa [List.isEmpty_iff] using hd
    have hmap : ∀ r : Rec, r.map (fun kv =>
        if isDateCol kv.1 = true ∧ kv.1 ∈ cols ∧ kv.2 ≠ Val.null ∧ kv.2 ≠ Val.text ""
        then (kv.1, Val.text (fmtDateSpec iso kv.2)) else kv) = r := by
      intro r
      refine list_map_self r _ fun kv _ => if_neg ?_
      rintro ⟨hdc, hmem, _, _⟩
      have : kv.1 ∈ cols.filter isDateCol := List.mem_filter.mpr ⟨hmem, hdc⟩
      rw [hnil] at this
      cases this
    symm
    calc rows.map _ = rows.map id := List.map_congr_left fun r _ => hmap r
      _ = rows := List.map_id rows
  · rw [if_neg hd]
    refine List.map_congr_left fun r _ => ?_
    refine List.map_congr_left fun kv _ => ?_
    by_cases hc : isDateCol kv.1 = true ∧ kv.1 ∈ cols ∧ kv.2 ≠ Val.null ∧ kv.2 ≠ Val.text ""
    · rw [if_pos ((dateColsCond_iff cols kv).mpr hc), if_pos hc,
        fmtDate_eq_fmtDateSpec]
    · rw [if_neg (fun hb => hc ((dateColsCond_iff cols kv).mp hb)), if_neg hc]

/-- C9 counterexample: a `created_at` value of `0` passes the
`!= null && !== ""` guard but `fmtDate(0)` returns `""` (the falsy
branch), not the original string form `"0"` that the claim requires for a
non-positive value. -/
theorem C9_date_columns_cex :
    mapDateColumns iso0 [[("created_at", Val.int 0)]] ["created_at"] =
      [[("created_at", Val.text "")]] ∧
    fmtDateClaim iso0 (Val.int 0) = "0" ∧
    Val.text "" ≠ Val.text "0" := by
  refine ⟨by decide, by decide, by decide⟩

/-! ## Claim C2 — on-hand is the rounded signed transaction sum -/

theorem caseSigned_eq_specContribution (ty : String) (q : ℚ) :
    caseSigned ty q = specContribution ty q := by
  unfold caseSigned specContribution
  dsimp only
  by_cases h1 : jsUpper ty = "ADD"
  · rw [if_pos h1, if_pos (Or.inl h1)]
  · by_cases h2 : jsUpper ty = "REMOVE"
    · rw [if_neg h1, if_pos h2,
        if_neg (fun h => h.elim h1 (fun h3 => absurd (h3.symm.trans h2) (by decide))),
        if_pos h2]
    · by_cases h3 : jsUpper ty = "ADJUST"
      · rw [if_neg h1, if_neg h2, if_pos h3, if_pos (Or.inr h3)]
      · rw [if_neg h1, if_neg h2, if_neg h3,
          if_neg (fun h => h.elim h1 h3), if_neg h2]

theorem snapshot_on_hand (js : List JoinedTxn) (row : SnapRow)
    (h : row ∈ snapshotRowsOf js) :
    row.on_hand = round3 (((js.filter (fun j =>
      (j.storage, j.feed_type, j.unit) =
        (row.storage, row.feed_type, row.unit))).map
      (fun j => specContribution j.type j.qty)).sum) := by
  unfold snapshotRowsOf at h
  rcases List.mem_map.mp h with ⟨k, hk, hrow⟩
  subst hrow
  dsimp only
  have hkey : ((k.1 : String), k.2.1, k.2.2) = k := by
    cases k with
    | mk a bc => cases bc with
      | mk b c => rfl
  rw [hkey]
  have hmapeq : ∀ l : List JoinedTxn,
      l.map (fun j => caseSigned j.type j.qty) =
        l.map (fun j => specContribution j.type j.qty) :=
    fun l => List.map_congr_left fun j _ => caseSigned_eq_specContribution j.type j.qty
  rw [hmapeq]

/-- C2: every row of either snapshot aggregation carries as `on_hand` the
signed sum of its group's transactions — `ADD` and `ADJUST` contribute
`+qty`, `REMOVE` contributes `-qty`, case-insensitively, any other kind
contributes `0` — rounded to three decimal places; the same formula holds
for the pooled and for the legacy aggregation. -/
theorem C2_on_hand_signed_sum (t : InvTables) (row : SnapRow) :
    (row ∈ pooledSnapshot t →
      row.on_hand = round3 ((((pooledJoined t).filter (fun j =>
        (j.storage, j.feed_type, j.unit) =
          (row.storage, row.feed_type, row.unit))).map
        (fun j => specContribution j.type j.qty)).sum)) ∧
    (row ∈ legacySnapshot t →
      row.on_hand = round3 ((((legacyJoined t).filter (fun j =>
        (j.storage, j.feed_type, j.unit) =
          (row.storage, row.feed_type, row.unit))).map
        (fun j => specContribution j.type j.qty)).sum)) :=
  ⟨fun h => snapshot_on_hand (pooledJoined t) row h,
   fun h => snapshot_on_hand (legacyJoined t) row h⟩

/-- Concrete instance of C2 on `T0` (mixed-case kinds `ADD`, `remove`,
`Adjust` over one pooled group, and `ADD` over one legacy lot). -/
theorem C2_on_hand_signed_sum_witness :
    r2p.on_hand = round3 ((((pooledJoined T0).filter (fun j =>
      (j.storage, j.feed_type, j.unit) =
        (r2p.storage, r2p.feed_type, r2p.unit))).map
      (fun j => specContribution j.type j.qty)).sum) ∧
    r2l.on_hand = round3 ((((legacyJoined T0).filter (fun j =>
      (j.storage, j.feed_type, j.unit) =
        (r2l.storage, r2l.feed_type, r2l.unit))).map
      (fun j => specContribution j.type j.qty)).sum) := by
  constructor
  · exact (C2_on_hand_signed_sum T0 r2p).1 (by
      rw [show pooledSnapshot T0 = [r2p] from rfl]
      exact List.mem_singleton.mpr rfl)
  · exact (C2_on_hand_signed_sum T0 r2l).2 (by
      rw [show legacySnapshot T0 = [r2l] from rfl]
      exact List.mem_singleton.mpr rfl)

/-! ## Claim C3 — per-view result caps -/

theorem natName_inj : Function.Injective natName := by
  intro a b h
  have hd : List.replicate a 'a' = List.replicate b 'a' := congrArg String.data h
  have hl := congrArg List.length hd
  simpa [List.length_replicate] using hl

theorem groupKeysAux_length (js : List JoinedTxn) :
    ∀ seen : List (String × String × String),
    (js.map fun j => (j.storage, j.feed_type, j.unit)).Nodup →
    (∀ j ∈ js, (j.storage, j.feed_type, j.unit) ∉ seen) →
    (groupKeysAux seen js).length = js.length := by
  induction js with
  | nil =>
    intro seen _ _
    rfl
  | cons j t ih =>
    intro seen hnd hdis
    have hnd' := List.nodup_cons.mp hnd
    unfold groupKeysAux
    dsimp only
    rw [if_neg (hdis j (List.mem_cons_self j t))]
    simp only [List.length_cons]
    refine congrArg (· + 1) (ih _ hnd'.2 ?_)
    intro j' hj' hmem
    rcases List.mem_cons.mp hmem with he | hs
    · exact hnd'.1 (List.mem_map.mpr ⟨j', hj', he⟩)
    · exact hdis j' (List.mem_cons_of_mem j hj') hs

theorem pooledJoined_bigInv (n : Nat) :
    pooledJoined (bigInv n) = (List.range (n + 1)).map fun i =>
      ({ storage := "S", feed_type := natName i, unit := "u", type := "ADD"
         qty := 1 } : JoinedTxn) := by
  have hfl : ((List.range (n + 1)).map fun i =>
      ({ id := 0, name := natName i, unit := "u", cost_per_unit := 0 } :
        FeedLotRow)).filter (fun fl => fl.id == (0 : Int)) =
      (List.range (n + 1)).map fun i =>
        ({ id := 0, name := natName i, unit := "u", cost_per_unit := 0 } :
          FeedLotRow) := by
    refine List.filter_eq_self.mpr fun fl hfl => ?_
    rcases List.mem_map.mp hfl with ⟨i, _, rfl⟩
    rfl
  unfold pooledJoined bigInv
  dsimp only
  simp only [List.flatMap_cons, List.flatMap_nil, List.append_nil,
    List.filter_cons, List.filter_nil]
  norm_num
  rw [hfl, List.map_map]
  rfl

theorem legacyJoined_bigInv (n : Nat) :
    legacyJoined (bigInv n) = (List.range (n + 1)).map fun i =>
      ({ storage := "S", feed_type := natName i, unit := "u", type := "ADD"
         qty := 1 } : JoinedTxn) := by
  have hfl : ((List.range (n + 1)).map fun i =>
      ({ id := 0, name := natName i, unit := "u", cost_per_unit := 0 } :
        FeedLotRow)).filter (fun fl => fl.id == (0 : Int)) =
      (List.range (n + 1)).map fun i =>
        ({ id := 0, name := natName i, unit := "u", cost_per_unit := 0 } :
          FeedLotRow) := by
    refine List.filter_eq_self.mpr fun fl hfl => ?_
    rcases List.mem_map.mp hfl with ⟨i, _, rfl⟩
    rfl
  unfold legacyJoined bigInv
  dsimp only
  simp only [List.flatMap_cons, List.flatMap_nil, List.append_nil,
    List.filter_cons, List.filter_nil]
  norm_num
  rw [hfl, List.map_map]
  rfl

theorem snapshotRowsOf_bigInv_length (n : Nat) (js : List JoinedTxn)
    (hjs : js = (List.range (n + 1)).map fun i =>
      ({ storage := "S", feed_type := natName i, unit := "u", type := "ADD"
         qty := 1 } : JoinedTxn)) :
    (snapshotRowsOf js).length = n + 1 := by
  unfold snapshotRowsOf groupKeys
  rw [List.length_map, hjs]
  rw [groupKeysAux_length _ [] ?_ ?_]
  · rw [List.length_map, List.length_range]
  · rw [List.map_map]
    refine List.Nodup.map ?_ (List.nodup_range _)
    intro a b hab
    have : natName a = natName b := by
      have := congrArg (fun p : String × String × String => p.2.1) hab
      simpa using this
    exact natName_inj this
  · intro j _ hmem
    exact (List.not_mem_nil _) hmem

/-- C3 (amended): breeding sessions are capped at 200 rows, breeding
exposures at 500, the feed log at 2000; the roster (cattle) query carries
no `LIMIT` at all — a roster of 201 head is fetched in full — and the
inventory snapshot is likewise uncapped: both its aggregations can
exceed any bound. -/
theorem C3_row_caps (sessions : List SessionRow) (exposures : List ExposureRow)
    (entries : List FeedEntryRow) (lots : List FeedLotRow) :
    (sessionsQuery sessions).length ≤ 200 ∧
    (exposuresQuery exposures).length ≤ 500 ∧
    (feedQuery entries lots).length ≤ 2000 ∧
    (∃ cattle : List CattleRow, 200 < (cattleQuery cattle).length) ∧
    (∀ n : Nat, ∃ t : InvTables,
      n < (pooledSnapshot t).length ∧ n < (legacySnapshot t).length) := by
  refine ⟨?_, ?_, ?_, ?_, ?_⟩
  · unfold sessionsQuery
    rw [List.length_take]
    exact min_le_left _ _
  · unfold exposuresQuery
    rw [List.length_map, List.length_take]
    exact min_le_left _ _
  · unfold feedQuery
    rw [List.length_take]
    exact min_le_left _ _
  · refine ⟨cattle201, ?_⟩
    unfold cattleQuery cattle201
    rw [List.length_mergeSort, List.length_replicate]
    norm_num
  · intro n
    refine ⟨bigInv n, ?_, ?_⟩
    · unfold pooledSnapshot
      rw [snapshotRowsOf_bigInv_length n _ (pooledJoined_bigInv n)]
      omega
    · unfold legacySnapshot
      rw [snapshotRowsOf_bigInv_length n _ (legacyJoined_bigInv n)]
      omega

/-- C3 counterexample: the claim caps the roster at 200 rows, but the
cattle query has no `LIMIT` — 201 stored head yield 201 fetched rows. -/
theorem C3_row_caps_cex : 200 < (cattleQuery cattle201).length := by
  unfold cattleQuery cattle201
  rw [List.length_mergeSort, List.length_replicate]
  norm_num

/-! ## Claim C1 — the inventory snapshot resolution policy -/

theorem count_default_eq {α : Type u_1} (o : Option (List α)) (b : Bool)
    (hb : b = true → o.isSome = true) :
    (if b then (o.getD []).length else 0) = countOrZero o b := by
  unfold countOrZero
  cases b with
  | false =>
    cases o with
    | none => rfl
    | some l => rfl
  | true =>
    have := hb rfl
    cases o with
    | none => cases this
    | some l => rfl

/-- C1 (amended): in the current revision of the viewer (the file under
`src/unnamed/`), the inventory branch selects its result by the claimed
fallback order — pooled when present with a non-empty aggregation, else
legacy when present with a non-empty aggregation, else the diagnostic
with counts defaulting to 0 for absent quadruples; presence alone never
short-circuits.  (The older revision under `src/docs/` violates the
claim; see the counterexample.) -/
theorem C1_inventory_policy (db : InvDB) :
    renderInventory db = inventoryPolicySpec db := by
  have hp : (hasPooled db && decide (0 < (pooledSnapshot (tablesOf db)).length)) = true ↔
      (hasPooled db = true ∧ pooledSnapshot (tablesOf db) ≠ []) := by
    simp [List.length_pos]
  have hl : (hasLegacy db && decide (0 < (legacySnapshot (tablesOf db)).length)) = true ↔
      (hasLegacy db = true ∧ legacySnapshot (tablesOf db) ≠ []) := by
    simp [List.length_pos]
  have hpools : hasPooled db = true → db.pools.isSome = true := by
    intro h
    unfold hasPooled at h
    rcases (Bool.and_eq_true _ _).mp h with ⟨h', _⟩
    rcases (Bool.and_eq_true _ _).mp h' with ⟨h'', _⟩
    exact ((Bool.and_eq_true _ _).mp h'').1
  have hptxns : hasPooled db = true → db.poolTxns.isSome = true := by
    intro h
    unfold hasPooled at h
    rcases (Bool.and_eq_true _ _).mp h with ⟨h', _⟩
    rcases (Bool.and_eq_true _ _).mp h' with ⟨h'', _⟩
    exact ((Bool.and_eq_true _ _).mp h'').2
  have hllots : hasLegacy db = true → db.legacyLots.isSome = true := by
    intro h
    unfold hasLegacy at h
    rcases (Bool.and_eq_true _ _).mp h with ⟨h', _⟩
    rcases (Bool.and_eq_true _ _).mp h' with ⟨h'', _⟩
    exact ((Bool.and_eq_true _ _).mp h'').1
  have hltxns : hasLegacy db = true → db.legacyTxns.isSome = true := by
    intro h
    unfold hasLegacy at h
    rcases (Bool.and_eq_true _ _).mp h with ⟨h', _⟩
    rcases (Bool.and_eq_true _ _).mp h' with ⟨h'', _⟩
    exact ((Bool.and_eq_true _ _).mp h'').2
  unfold renderInventory inventoryPolicySpec
  by_cases h1 : hasPooled db = true ∧ pooledSnapshot (tablesOf db) ≠ []
  · rw [if_pos (hp.mpr h1), if_pos h1]
  · rw [if_neg (fun hb => h1 (hp.mp hb)), if_neg h1]
    by_cases h2 : hasLegacy db = true ∧ legacySnapshot (tablesOf db) ≠ []
    · rw [if_pos (hl.mpr h2), if_pos h2]
    · rw [if_neg (fun hb => h2 (hl.mp hb)), if_neg h2]
      dsimp only [tablesOf]
      rw [count_default_eq db.pools _ hpools,
        count_default_eq db.poolTxns _ hptxns,
        count_default_eq db.legacyLots _ hllots,
        count_default_eq db.legacyTxns _ hltxns]

/-- C1 counterexample: on a snapshot whose pooled quadruple is present
but empty while the legacy quadruple holds data, the older revision
(`src/docs/app.js`) renders the pooled diagnostic and never the non-empty
legacy aggregation, contradicting the claimed fallback order for that
file. -/
theorem C1_inventory_policy_cex :
    renderInventoryOld dbC1 = InvResultOld.pooledDiag 0 0 [] ∧
    hasPooled dbC1 = true ∧
    pooledSnapshot (tablesOf dbC1) = [] ∧
    hasLegacy dbC1 = true ∧
    legacySnapshot (tablesOf dbC1) ≠ [] ∧
    renderInventoryOld dbC1 ≠ InvResultOld.legacy (legacySnapshot (tablesOf dbC1)) := by
  refine ⟨by decide, by decide, by decide, by decide, by decide, by decide⟩

end Viewer
